import Mathlib

/-!
Shallow embedding of the field-mapping, poll-gate and reading-normalisation
logic of `bin/user/juice.py` from the weewx-pijuice extension.

Python dicts are modelled as ordered association lists with distinct keys
(`List (String × α)`): `dictGet` is `dict.get(k)`, `dictSet` is the
single-key `dict.update({k: v})`, and `dictUpdate` is `dict.update(other)`
(existing keys keep their position and take the new value, new keys are
appended in the other dict's order).
-/

namespace PiJuice

/-- `dict.get(k)`: the value stored under key `k`, if any. -/
def dictGet {α : Type} : List (String × α) → String → Option α
  | [], _ => none
  | e :: rest, k => if e.1 = k then some e.2 else dictGet rest k

/-- `d[k] = v` (equivalently `d.update(\x7bk: v\x7d)`): replace the value in
place when the key exists, otherwise append the new entry at the end. -/
def dictSet {α : Type} : List (String × α) → String → α → List (String × α)
  | [], k, v => [(k, v)]
  | e :: rest, k, v => if e.1 = k then (k, v) :: rest else e :: dictSet rest k v

/-- `d.update(u)`: keys already in `d` keep their position and take `u`'s
value; keys only in `u` are appended in `u`'s order. -/
def dictUpdate {α : Type} (d u : List (String × α)) : List (String × α) :=
  d.map (fun e =>
    match dictGet u e.1 with
    | some v => (e.1, v)
    | none => e)
  ++ u.filter (fun e => (dictGet d e.1).isNone)

/-- A field map: WeeWX (output) field name → PiJuice source field name. -/
abbrev FMap := List (String × String)

/-- `PiJuiceService.default_field_map` (juice.py lines 250-257). -/
def default_field_map : FMap :=
  [("ups_temp", "batt_temp"),
   ("ups_charge", "batt_charge"),
   ("ups_voltage", "batt_voltage"),
   ("ups_current", "batt_current"),
   ("io_voltage", "io_voltage"),
   ("io_current", "io_current")]

/-- `api_lookup` (juice.py lines 222-228): PiJuice field name →
`PiJuiceApi` property providing its data. -/
def api_lookup : FMap :=
  [("batt_temp", "battery_temperature"),
   ("batt_charge", "charge_level"),
   ("batt_voltage", "battery_voltage"),
   ("batt_current", "battery_current"),
   ("io_voltage", "io_voltage"),
   ("io_current", "io_current")]

/-- `pj_errors` (juice.py lines 169-190): PiJuice error codes with their
plain English meaning. -/
def pj_errors : List (String × String) :=
  [("NO_ERROR", "No error"),
   ("COMMUNICATION_ERROR", "Communication error"),
   ("DATA_CORRUPTED", "Corrupt data"),
   ("WRITE_FAILED", "Write failed"),
   ("BAD_ARGUMENT", "Invalid argument"),
   ("INVALID_DUTY_CYCLE", "Invalid duty cycle"),
   ("INVALID_SECOND", "Invalid second"),
   ("INVALID_MINUTE", "Invalid minute"),
   ("INVALID_HOUR", "Invalid hour"),
   ("INVALID_WEEKDAY", "Invalid week day"),
   ("INVALID_DAY", "Invalid day"),
   ("INVALID_MONTH", "Invalid month"),
   ("INVALID_YEAR", "Invalid year"),
   ("INVALID_SUBSECOND", "Invalid sub-second"),
   ("INVALID_MINUTE_PERIOD", "Invalid minute period"),
   ("INVALID_DAY_OF_MONTH", "Invalid day of month"),
   ("UNKNOWN_DATA", "Unknown data"),
   ("INVALID_USB_MICRO_CURRENT_LIMIT", "Invalid microUSB current limit"),
   ("INVALID_USB_MICRO_DPM", "Invalid microUSB Dynamic Power Management (DPM) loop"),
   ("INVALID_CONFIG", "Invalid configuration"),
   ("INVALID_PERIOD", "Invalid period")]

/-- Field-map extension resolution, `PiJuiceService.__init__` lines 286-302:
when the extensions dict is non-empty, pop from the working field map every
entry whose value (PiJuice source field) occurs among the extensions'
values, then `update` the field map with the extensions; when the
extensions dict is empty the field map is left untouched. -/
def resolve_field_map (field_map extensions : FMap) : FMap :=
  if 0 < extensions.length then
    dictUpdate
      (field_map.filter (fun kv => decide (kv.2 ∉ extensions.map Prod.snd)))
      extensions
  else
    field_map

/-- Field-map construction from configuration, `PiJuiceService.__init__`
lines 267-304. `cfg_field_map` is the `[[field_map]]` section of the
`[PiJuice]` stanza (`none` when absent), split as (its string-valued
entries, the `field_map_extensions` subsection nested *inside* it, `[]`
when there is none). `cfg_field_map_extensions` is a
`[[field_map_extensions]]` section appearing as a sibling of
`[[field_map]]` under `[PiJuice]` — the layout the module docstring
documents; the code obtains extensions with
`field_map.get('field_map_extensions', \x7b\x7d)` (line 277), a lookup
inside the field-map dict itself, and never reads
`pj_config_dict['field_map_extensions']`, so this argument is unused.
When `[[field_map]]` is absent the working map is `dict(default_field_map)`,
which contains no `field_map_extensions` key, so the extensions resolve to
the empty dict. (When a nested subsection does exist the real dict also
retains the stray `field_map_extensions` key itself, whose value is a
section rather than a string; the string-valued model omits that stray
entry, and no claim exercises that case.) -/
def service_field_map (cfg_field_map : Option (FMap × FMap))
    (_cfg_field_map_extensions : FMap) : FMap :=
  match cfg_field_map with
  | none => resolve_field_map default_field_map []
  | some p => resolve_field_map p.1 p.2

/-- One PiJuice API response envelope: the `error` entry
(`resp.get('error')`, `none` when the key is absent) and the optional
`data` payload. -/
structure ApiResp (α : Type) where
  error : Option String
  data : Option α
  deriving DecidableEq

/-- Result of one `PiJuiceApi` property: the bare (unit-converted) value,
or the single-key error dict `\x7b'error': code\x7d`. -/
inductive Reading (α : Type) where
  | val (x : α)
  | err (code : Option String)
  deriving DecidableEq

/-- `PiJuiceApi.get_data_or_error` (juice.py lines 556-569):
`resp.get('data', \x7b'error': resp.get('error')\x7d)` — the data payload
when the `data` key is present, otherwise the single-key error dict. -/
def get_data_or_error {α : Type} (resp : ApiResp α) : Reading α :=
  match resp.data with
  | some d => Reading.val d
  | none => Reading.err resp.error

/-- `PiJuiceApi.battery_voltage` (juice.py lines 609-622): divide the
`data` entry by 1000 (mV → V) when present, then normalise with
`get_data_or_error`. -/
def battery_voltage (resp : ApiResp ℚ) : Reading ℚ :=
  let v : ApiResp ℚ :=
    match resp.data with
    | some d => { resp with data := some (d / 1000) }
    | none => resp
  get_data_or_error v

/-- Python `"%s" % x` for `x = dict.get(k)`: `None` prints as `"None"`. -/
def pyStrOpt : Option String → String
  | none => "None"
  | some s => s

/-- `DirectPiJuice.display_error` (juice.py lines 1076-1090): raw mode
prints `Error: <code>`; otherwise `Error: <pj_errors.get(code)> (<code>)`,
where a failed table lookup renders as Python `None`. -/
def display_error (raw : Bool) (raw_error_string : String) : String :=
  if raw then
    "Error: " ++ raw_error_string
  else
    "Error: " ++ pyStrOpt (dictGet pj_errors raw_error_string) ++
      " (" ++ raw_error_string ++ ")"

/-- Accumulated PiJuice data, and loop-packet contents. -/
abbrev PJData := List (String × Reading ℚ)

/-- Loop body of `PiJuiceService.get_pj_data` (juice.py lines 384-405): for
each PiJuice source field (the field map's values, in order), look up the
API property in `api_lookup`; when it exists store that property's reading
under the *source* field name (`pj_data.update(\x7bfield: data\x7d)`),
otherwise skip the field (the code logs at debug level and continues).
`props` gives the current reading of each `PiJuiceApi` property. -/
def get_pj_data_go (props : String → Reading ℚ) :
    List String → PJData → PJData
  | [], pj_data => pj_data
  | field :: rest, pj_data =>
    match dictGet api_lookup field with
    | some fn => get_pj_data_go props rest (dictSet pj_data field (props fn))
    | none => get_pj_data_go props rest pj_data

/-- `PiJuiceService.get_pj_data` (juice.py lines 371-405). -/
def get_pj_data (field_map : FMap) (props : String → Reading ℚ) : PJData :=
  get_pj_data_go props (field_map.map Prod.snd) []

/-- Poll gate of `PiJuiceService.new_loop_packet` (juice.py line 362):
`self.last_update is None or self.last_update + self.update_interval <= now`. -/
def should_poll (last_update : Option Int) (now min_interval : Int) : Bool :=
  match last_update with
  | none => true
  | some t => decide (t + min_interval ≤ now)

/-- `PiJuiceService.new_loop_packet` (juice.py lines 350-369) as a state
transformer: given the stored `last_update`, the configured interval, the
resolved field map, the current PiJuice readings, the current time and the
event's packet, return the new `last_update` and the (possibly augmented)
loop packet. -/
def new_loop_packet (last_update : Option Int) (update_interval : Int)
    (field_map : FMap) (props : String → Reading ℚ)
    (now : Int) (packet : PJData) : Option Int × PJData :=
  if should_poll last_update now update_interval then
    (some now, dictUpdate packet (get_pj_data field_map props))
  else
    (last_update, packet)

/-! ## Dictionary lemmas -/

theorem dictGet_mem {α : Type} : ∀ {m : List (String × α)} {k : String} {v : α},
    dictGet m k = some v → (k, v) ∈ m := by
  intro m
  induction m with
  | nil => intro k v h; simp [dictGet] at h
  | cons e rest ih =>
    intro k v h
    rw [dictGet] at h
    by_cases hk : e.1 = k
    · rw [if_pos hk] at h
      have hv : e.2 = v := Option.some.inj h
      have he : (k, v) = e := by
        cases e
        simp only at hk hv
        rw [hk, hv]
      rw [he]
      exact List.mem_cons_self e rest
    · rw [if_neg hk] at h
      exact List.mem_cons_of_mem e (ih h)

theorem dictGet_dictSet {α : Type} :
    ∀ (m : List (String × α)) (k k' : String) (v : α),
      dictGet (dictSet m k v) k' = if k' = k then some v else dictGet m k' := by
  intro m
  induction m with
  | nil =>
    intro k k' v
    rw [dictSet]
    simp only [dictGet]
    by_cases h : k' = k
    · rw [if_pos h.symm, if_pos h]
    · rw [if_neg (fun hh : k = k' => h hh.symm), if_neg h]
  | cons e rest ih =>
    intro k k' v
    by_cases he : e.1 = k
    · rw [dictSet, if_pos he]
      simp only [dictGet]
      by_cases h : k' = k
      · rw [if_pos h.symm, if_pos h]
      · rw [if_neg (fun hh : k = k' => h hh.symm), if_neg h,
            if_neg (fun hh : e.1 = k' => h (hh.symm.trans he))]
    · rw [dictSet, if_neg he]
      simp only [dictGet]
      rw [ih]
      by_cases h : k' = k
      · rw [if_neg (fun hh : e.1 = k' => he (hh.trans h)), if_pos h, if_pos h]
      · rw [if_neg h, if_neg h]

theorem dictGet_isSome_iff {α : Type} :
    ∀ (m : List (String × α)) (f : String),
      (dictGet m f).isSome = true ↔ f ∈ m.map Prod.fst := by
  intro m
  induction m with
  | nil => intro f; simp [dictGet]
  | cons e rest ih =>
    intro f
    by_cases h : e.1 = f
    · simp [dictGet, h]
    · simp only [dictGet, if_neg h, List.map_cons, List.mem_cons, ih]
      constructor
      · intro hm; exact Or.inr hm
      · intro hm
        rcases hm with hm | hm
        · exact absurd hm.symm h
        · exact hm

theorem mem_dictUpdate {α : Type} {d u : List (String × α)} {k : String} {v : α}
    (h : (k, v) ∈ dictUpdate d u) :
    (k, v) ∈ u ∨ ((k, v) ∈ d ∧ dictGet u k = none) := by
  unfold dictUpdate at h
  rcases List.mem_append.mp h with h1 | h2
  · rcases List.mem_map.mp h1 with ⟨e, he, heq⟩
    cases hg : dictGet u e.1 with
    | some w =>
      rw [hg] at heq
      have hk : e.1 = k := congrArg Prod.fst heq
      have hv : w = v := congrArg Prod.snd heq
      exact Or.inl (dictGet_mem (show dictGet u k = some v by
        rw [← hk, ← hv]; exact hg))
    | none =>
      rw [hg] at heq
      refine Or.inr ⟨heq ▸ he, ?_⟩
      have hk : e.1 = k := congrArg Prod.fst heq
      rw [← hk]
      exact hg
  · exact Or.inl (List.mem_filter.mp h2).1

/-! ## Field-map resolution lemmas -/

theorem resolve_mem_ext {M E : FMap} (hE : E ≠ []) {k v : String}
    (hmem : (k, v) ∈ resolve_field_map M E) (hv : v ∈ E.map Prod.snd) :
    (k, v) ∈ E := by
  have hlen : 0 < E.length := List.length_pos.mpr hE
  rw [resolve_field_map, if_pos hlen] at hmem
  rcases mem_dictUpdate hmem with h1 | ⟨h2, _⟩
  · exact h1
  · have hcond := (List.mem_filter.mp h2).2
    exact absurd hv (of_decide_eq_true hcond)

/-! ## Characterisation of `get_pj_data` -/

theorem dictGet_get_pj_data_go (props : String → Reading ℚ) :
    ∀ (fields : List String) (acc : PJData) (f : String),
      dictGet (get_pj_data_go props fields acc) f =
        if f ∈ fields ∧ (dictGet api_lookup f).isSome = true
        then (dictGet api_lookup f).map props
        else dictGet acc f := by
  intro fields
  induction fields with
  | nil =>
    intro acc f
    simp [get_pj_data_go]
  | cons field rest ih =>
    intro acc f
    cases hfield : dictGet api_lookup field with
    | some fn =>
      rw [show get_pj_data_go props (field :: rest) acc =
            get_pj_data_go props rest (dictSet acc field (props fn)) by
          rw [get_pj_data_go, hfield], ih, dictGet_dictSet]
      by_cases hf : f = field
      · subst hf
        simp [hfield, List.mem_cons]
      · by_cases hr : f ∈ rest ∧ (dictGet api_lookup f).isSome = true
        · rw [if_pos hr, if_pos ⟨List.mem_cons_of_mem field hr.1, hr.2⟩]
        · rw [if_neg hr, if_neg hf, if_neg ?_]
          intro hcons
          exact hr ⟨(List.mem_cons.mp hcons.1).resolve_left hf, hcons.2⟩
    | none =>
      rw [show get_pj_data_go props (field :: rest) acc =
            get_pj_data_go props rest acc by rw [get_pj_data_go, hfield], ih]
      by_cases hf : f = field
      · subst hf
        simp [hfield, List.mem_cons]
      · by_cases hr : f ∈ rest ∧ (dictGet api_lookup f).isSome = true
        · rw [if_pos hr, if_pos ⟨List.mem_cons_of_mem field hr.1, hr.2⟩]
        · rw [if_neg hr, if_neg ?_]
          intro hcons
          exact hr ⟨(List.mem_cons.mp hcons.1).resolve_left hf, hcons.2⟩

theorem dictGet_get_pj_data (field_map : FMap) (props : String → Reading ℚ)
    (f : String) :
    dictGet (get_pj_data field_map props) f =
      if f ∈ field_map.map Prod.snd ∧ (dictGet api_lookup f).isSome = true
      then (dictGet api_lookup f).map props
      else none := by
  rw [get_pj_data, dictGet_get_pj_data_go]
  by_cases h : f ∈ field_map.map Prod.snd ∧ (dictGet api_lookup f).isSome = true
  · rw [if_pos h, if_pos h]
  · rw [if_neg h, if_neg h, dictGet]

/-! ## Claims -/

/-- Claim C1, counterexample: the claim says that for any error code other
than `NO_ERROR` the normaliser takes the error branch even when a data
payload is present. In the code `get_data_or_error` returns
`resp.get('data', ...)`, so a response with error code
`COMMUNICATION_ERROR` and payload 42 yields the bare value 42, not the
error indicator. -/
theorem claim_C1_counterexample :
    get_data_or_error (ApiResp.mk (some "COMMUNICATION_ERROR") (some (42 : ℚ))) =
      Reading.val 42 ∧
    Reading.val (42 : ℚ) ≠ Reading.err (some "COMMUNICATION_ERROR") :=
  ⟨rfl, fun h => Reading.noConfusion h⟩

/-- Claim C1 (amended): `get_data_or_error` returns the bare data value
whenever the response carries a `data` payload, regardless of the error
code — also when the error code differs from `NO_ERROR` — and returns the
single-key error indicator carrying the response's error code exactly when
no data payload is present. -/
theorem claim_C1_amended (e : Option String) (d : ℚ) :
    get_data_or_error (ApiResp.mk e (some d)) = Reading.val d ∧
    get_data_or_error (ApiResp.mk e (none : Option ℚ)) = Reading.err e :=
  ⟨rfl, rfl⟩

/-- Claim C2, counterexample: with extensions that map two output keys to
the same source value (`a ↦ batt_temp`, `b ↦ batt_temp`), the resolved map
contains two distinct keys mapping to one source value that is a value of
the extensions, so the no-duplicate-source invariant fails as universally
stated. -/
theorem claim_C2_counterexample :
    ("a", "batt_temp") ∈
      resolve_field_map default_field_map
        [("a", "batt_temp"), ("b", "batt_temp")] ∧
    ("b", "batt_temp") ∈
      resolve_field_map default_field_map
        [("a", "batt_temp"), ("b", "batt_temp")] ∧
    "batt_temp" ∈
      ([("a", "batt_temp"), ("b", "batt_temp")] : FMap).map Prod.snd ∧
    ("a" : String) ≠ "b" := by decide

/-- Claim C2 (amended): for every base map `M` and non-empty extensions
map `E` that maps no two output keys to the same source value, resolution
(removal of base entries whose value occurs among `E`'s values, then merge
with `E` winning) leaves no two distinct keys mapping to one source value
that is also a value of `E`; in particular resolving extensions
`batt_volts ↦ batt_voltage` over the default map removes key `ups_voltage`
and contains `batt_volts ↦ batt_voltage`. -/
theorem claim_C2_amended :
    (∀ (M E : FMap), E ≠ [] →
      (∀ p, p ∈ E → ∀ q, q ∈ E → p.2 = q.2 → p.1 = q.1) →
      ∀ k1 k2 v, (k1, v) ∈ resolve_field_map M E →
        (k2, v) ∈ resolve_field_map M E → v ∈ E.map Prod.snd → k1 = k2) ∧
    dictGet (resolve_field_map default_field_map
        [("batt_volts", "batt_voltage")]) "ups_voltage" = none ∧
    dictGet (resolve_field_map default_field_map
        [("batt_volts", "batt_voltage")]) "batt_volts" =
      some "batt_voltage" := by
  refine ⟨?_, by decide, by decide⟩
  intro M E hE hinj k1 k2 v h1 h2 hv
  exact hinj _ (resolve_mem_ext hE h1 hv) _ (resolve_mem_ext hE h2 hv) rfl

/-- Witness for C2: the amended invariant applied at the default map and
the singleton extensions `batt_volts ↦ batt_voltage`. -/
theorem claim_C2_witness : ("batt_volts" : String) = "batt_volts" :=
  claim_C2_amended.1 default_field_map [("batt_volts", "batt_voltage")]
    (by decide) (by decide) "batt_volts" "batt_volts" "batt_voltage"
    (by decide) (by decide) (by decide)

/-- Claim C3: the claim (and the module docstring) say that configuration
extensions `batt_volts ↦ batt_voltage` over the default field map remove
key `ups_voltage` and add `batt_volts ↦ batt_voltage`. The code instead
reads extensions with `field_map.get('field_map_extensions', ...)` — a
lookup inside the field-map dict itself — and never reads the documented
sibling `[[field_map_extensions]]` section of `[PiJuice]`; with the
default map in use the extensions therefore resolve to the empty dict and
the resolved map is the unchanged default map: it still contains
`ups_voltage ↦ batt_voltage` and has no `batt_volts` key. -/
theorem claim_C3_code_eval :
    service_field_map none [("batt_volts", "batt_voltage")] =
      default_field_map ∧
    dictGet (service_field_map none [("batt_volts", "batt_voltage")])
      "ups_voltage" = some "batt_voltage" ∧
    dictGet (service_field_map none [("batt_volts", "batt_voltage")])
      "batt_volts" = none := by decide

/-- Claim C4, counterexample: the claim says an empty (or absent)
replacement map with empty extensions resolves to the default field map.
The code only falls back to the default when the `field_map` key is absent
(`is None`); a supplied but empty `[[field_map]]` section is used as the
working map, so resolution yields the empty map, not the default. -/
theorem claim_C4_counterexample :
    service_field_map (some ([], [])) [] = [] ∧
    service_field_map (some ([], [])) [] ≠ default_field_map := by decide

/-- Claim C4 (amended): resolving with an absent replacement map and empty
extensions yields exactly the default field map; resolution starts from
the replacement map whenever it is supplied — even when it is empty — and
otherwise from a (shallow copy of the) default map. -/
theorem claim_C4_amended (sibling fm : FMap) :
    service_field_map none sibling = default_field_map ∧
    service_field_map (some (fm, [])) sibling = fm :=
  ⟨rfl, rfl⟩

/-- Claim C5: `should_poll(None, now, interval)` is true for all `now` and
`interval`; for `interval > 0`, `should_poll(t, now, interval)` is true
exactly when `now ≥ t + interval`, so it is true at `now = t + interval`
and false at `now = t + interval - 1`. -/
theorem claim_C5 :
    (∀ (now i : Int), should_poll none now i = true) ∧
    (∀ (t now i : Int), 0 < i →
      (should_poll (some t) now i = true ↔ now ≥ t + i)) ∧
    (∀ (t i : Int), 0 < i →
      should_poll (some t) (t + i) i = true ∧
      should_poll (some t) (t + i - 1) i = false) := by
  refine ⟨fun now i => rfl, fun t now i _ => ?_, fun t i hi => ⟨?_, ?_⟩⟩
  · simp [should_poll, ge_iff_le]
  · simp [should_poll]
  · simp only [should_poll, decide_eq_false_iff_not]
    omega

/-- Witness for C5: the poll gate evaluated with `t = 100`,
`interval = 20`. -/
theorem claim_C5_witness :
    (should_poll (some 100) 120 20 = true ↔ (120 : Int) ≥ 100 + 20) ∧
    should_poll (some 100) (100 + 20) 20 = true ∧
    should_poll (some 100) (100 + 20 - 1) 20 = false :=
  ⟨claim_C5.2.1 100 120 20 (by decide), claim_C5.2.2 100 20 (by decide)⟩

/-- Claim C6: on a new loop event, if the poll gate fires then
`last_update` is set to the current timestamp — for every `props`, i.e.
regardless of whether any individual reading succeeded or returned a
per-field error; if the gate does not fire, `last_update` and the event's
packet are both left unchanged. -/
theorem claim_C6 (last_update : Option Int) (update_interval : Int)
    (field_map : FMap) (props : String → Reading ℚ) (now : Int)
    (packet : PJData) :
    (should_poll last_update now update_interval = true →
      (new_loop_packet last_update update_interval field_map props now
          packet).1 = some now) ∧
    (should_poll last_update now update_interval = false →
      new_loop_packet last_update update_interval field_map props now packet =
        (last_update, packet)) := by
  constructor
  · intro h
    rw [new_loop_packet, if_pos h]
  · intro h
    rw [new_loop_packet, if_neg (by rw [h]; exact Bool.false_ne_true)]

/-- Witness for C6: both gate outcomes at concrete states (never polled at
`now = 1000`; last polled at 1000 with interval 20 and `now = 1001`). -/
theorem claim_C6_witness :
    (new_loop_packet none 20 [] (fun _ => Reading.val 0) 1000 []).1 =
      some 1000 ∧
    new_loop_packet (some 1000) 20 [] (fun _ => Reading.val 0) 1001 [] =
      (some 1000, []) :=
  ⟨(claim_C6 none 20 [] (fun _ => Reading.val 0) 1000 []).1 rfl,
   (claim_C6 (some 1000) 20 [] (fun _ => Reading.val 0) 1001 []).2
     (by decide)⟩

/-- Claim C7: for the battery-voltage accessor, a vendor response with
error code `NO_ERROR` and data payload 4050 normalises to 4.05, the
payload divided by 1000 (mV → V). -/
theorem claim_C7 :
    battery_voltage (ApiResp.mk (some "NO_ERROR") (some 4050)) =
      Reading.val (4.05 : ℚ) ∧
    (4.05 : ℚ) = 4050 / 1000 := by
  constructor
  · show Reading.val ((4050 : ℚ) / 1000) = Reading.val 4.05
    norm_num
  · norm_num

/-- Claim C8, counterexample: in non-raw mode the formatter prepends
`Error: ` (so the rendering of `COMMUNICATION_ERROR` is not the bare
`Communication error (COMMUNICATION_ERROR)` the claim states), and for a
code absent from the table it renders Python `None` in the phrase
position rather than falling back to the raw code string. -/
theorem claim_C8_counterexample :
    display_error false "COMMUNICATION_ERROR" ≠
      "Communication error (COMMUNICATION_ERROR)" ∧
    display_error false "SOME_UNKNOWN_CODE" =
      "Error: None (SOME_UNKNOWN_CODE)" ∧
    display_error false "SOME_UNKNOWN_CODE" ≠
      "Error: SOME_UNKNOWN_CODE (SOME_UNKNOWN_CODE)" := by decide

/-- Claim C8 (amended): in non-raw mode the formatter returns
`Error: <phrase> (<code>)` where `<phrase>` is the code's entry in the
fixed code→phrase table, rendered as the string `None` when the code is
absent from the table; for `COMMUNICATION_ERROR` the result is
`Error: Communication error (COMMUNICATION_ERROR)`. -/
theorem claim_C8_amended :
    (∀ code phrase, dictGet pj_errors code = some phrase →
      display_error false code =
        "Error: " ++ phrase ++ " (" ++ code ++ ")") ∧
    (∀ code, dictGet pj_errors code = none →
      display_error false code = "Error: None (" ++ code ++ ")") ∧
    display_error false "COMMUNICATION_ERROR" =
      "Error: Communication error (COMMUNICATION_ERROR)" := by
  refine ⟨?_, ?_, by decide⟩
  · intro code phrase h
    show "Error: " ++ pyStrOpt (dictGet pj_errors code) ++
      " (" ++ code ++ ")" = _
    rw [h]
    rfl
  · intro code h
    show "Error: " ++ pyStrOpt (dictGet pj_errors code) ++
      " (" ++ code ++ ")" = _
    rw [h]
    rfl

/-- Witness for C8: a code present in the table and a code absent from
it. -/
theorem claim_C8_witness :
    display_error false "WRITE_FAILED" = "Error: Write failed (WRITE_FAILED)" ∧
    display_error false "NOT_A_CODE" = "Error: None (NOT_A_CODE)" :=
  ⟨claim_C8_amended.1 "WRITE_FAILED" "Write failed" (by decide),
   claim_C8_amended.2.1 "NOT_A_CODE" (by decide)⟩

/-- Claim C9, counterexample: the claim says a field whose hardware read
errors is omitted from the merged record. `get_pj_data` stores whatever
the property returns, so when the battery-voltage property returns the
error indicator for `COMMUNICATION_ERROR` the field `batt_voltage` is
present in the result, carrying that error indicator, not omitted. -/
theorem claim_C9_counterexample :
    dictGet (get_pj_data default_field_map
        (fun fn => if fn = "battery_voltage"
          then Reading.err (some "COMMUNICATION_ERROR")
          else Reading.val 1)) "batt_voltage" =
      some (Reading.err (some "COMMUNICATION_ERROR")) ∧
    some (Reading.err (some "COMMUNICATION_ERROR")) ≠
      (none : Option (Reading ℚ)) :=
  ⟨by decide, fun h => Option.noConfusion h⟩

/-- Claim C9 (amended): during a poll cycle a configured source field with
no hardware accessor is skipped (it produces no entry) and never aborts
the cycle, and each field's entry depends only on its own reading: a field
with an accessor always yields exactly its property's reading — so a
per-field error stays local to that field, whose entry carries the error
indicator (rather than being omitted), and all other fields are
unaffected. -/
theorem claim_C9_amended (field_map : FMap) (props : String → Reading ℚ)
    (k v : String) (hmem : (k, v) ∈ field_map) :
    (dictGet api_lookup v = none →
      dictGet (get_pj_data field_map props) v = none) ∧
    (∀ fn, dictGet api_lookup v = some fn →
      dictGet (get_pj_data field_map props) v = some (props fn)) := by
  have hv : v ∈ field_map.map Prod.snd := List.mem_map_of_mem Prod.snd hmem
  constructor
  · intro h
    rw [dictGet_get_pj_data, if_neg]
    intro hc
    rw [h] at hc
    exact absurd hc.2 (by simp)
  · intro fn h
    rw [dictGet_get_pj_data, if_pos ⟨hv, by rw [h]; rfl⟩, h]
    rfl

/-- Witness for C9: a field map with one known source field (`batt_temp`)
and one unknown one (`nonsense`): the unknown field yields no entry, the
known one yields its property's reading. -/
theorem claim_C9_witness :
    dictGet (get_pj_data [("w_t", "batt_temp"), ("w_x", "nonsense")]
        (fun _ => Reading.val 2)) "nonsense" = none ∧
    dictGet (get_pj_data [("w_t", "batt_temp"), ("w_x", "nonsense")]
        (fun _ => Reading.val 2)) "batt_temp" = some (Reading.val 2) :=
  ⟨(claim_C9_amended [("w_t", "batt_temp"), ("w_x", "nonsense")]
      (fun _ => Reading.val 2) "w_x" "nonsense" (by decide)).1 (by decide),
   (claim_C9_amended [("w_t", "batt_temp"), ("w_x", "nonsense")]
      (fun _ => Reading.val 2) "w_t" "batt_temp" (by decide)).2
     "battery_temperature" (by decide)⟩

/-- Claim C10, counterexample: the claim says the field map's keys never
appear in the merged data. With the default field map, whose entry
`io_voltage ↦ io_voltage` maps a key to itself, the key `io_voltage` does
appear among the keys of `get_pj_data`'s result. -/
theorem claim_C10_counterexample :
    "io_voltage" ∈
      (get_pj_data default_field_map (fun _ => Reading.val 1)).map Prod.fst ∧
    "io_voltage" ∈ default_field_map.map Prod.fst := by decide

/-- Claim C10 (amended): the dict returned by `get_pj_data` is keyed by
the PiJuice source field names: its keys are exactly the field map's
values that have a hardware accessor — so a key of the field map appears
in the merged data only when it is itself also among the map's values (as
with the identity entries `io_voltage`, `io_current` of the default
map). -/
theorem claim_C10_amended (field_map : FMap) (props : String → Reading ℚ)
    (f : String) :
    (f ∈ (get_pj_data field_map props).map Prod.fst ↔
      f ∈ field_map.map Prod.snd ∧ (dictGet api_lookup f).isSome = true) ∧
    (f ∈ (get_pj_data field_map props).map Prod.fst →
      f ∈ field_map.map Prod.snd) := by
  have hiff : (dictGet (get_pj_data field_map props) f).isSome = true ↔
      f ∈ field_map.map Prod.snd ∧ (dictGet api_lookup f).isSome = true := by
    rw [dictGet_get_pj_data]
    by_cases h :
        f ∈ field_map.map Prod.snd ∧ (dictGet api_lookup f).isSome = true
    · rw [if_pos h]
      refine ⟨fun _ => h, fun _ => ?_⟩
      rcases Option.isSome_iff_exists.mp h.2 with ⟨fn, hg⟩
      rw [hg]
      rfl
    · rw [if_neg h]
      constructor
      · intro hs
        simp at hs
      · intro hh
        exact absurd hh h
  constructor
  · rw [← dictGet_isSome_iff]
    exact hiff
  · intro hk
    exact (hiff.mp ((dictGet_isSome_iff _ _).mpr hk)).1

/-- Witness for C10: with the default field map, `batt_voltage` (a source
field with an accessor) keys the result, and it is among the map's
values. -/
theorem claim_C10_witness :
    "batt_voltage" ∈
      (get_pj_data default_field_map (fun _ => Reading.val 3)).map Prod.fst ∧
    "batt_voltage" ∈ default_field_map.map Prod.snd :=
  ⟨(claim_C10_amended default_field_map (fun _ => Reading.val 3)
      "batt_voltage").1.mpr (by decide),
   (claim_C10_amended default_field_map (fun _ => Reading.val 3)
      "batt_voltage").2 (by decide)⟩

end PiJuice
